import Mathlib

/-!
Shallow embedding of the rug-pull model pipeline: the training script
`src/modeling/train_rugpull.py` and the scoring script
`src/modeling/score_rugpull.py`.

JSON values produced by `json.loads` are modelled by `JValue` (Python `None`
is `JValue.null`).  Fallible Python code (an expression that can raise) is
modelled with `Except String`.  External library behaviour that the scripts
rely on is modelled from its documented semantics: `json.loads` is an
abstract `parse` parameter, `pandas.Series(..., dtype="float")` cell
conversion is `seriesFloatCell`, `fillna(0)` is `fillRow`, column selection
`df[FEATURE_COLUMNS]` is `selectColumns`, and sklearn's stratified
`train_test_split` is `stratified_split` with the seeded RNG permutation
abstracted as a function parameter.
-/

/-- A JSON value as returned by Python's `json.loads` (Python `None` is
`null`; a JSON object is an association list with distinct keys). -/
inductive JValue where
  | null : JValue
  | bool : Bool → JValue
  | num : Rat → JValue
  | str : String → JValue
  | arr : List JValue → JValue
  | obj : List (String × JValue) → JValue

/-- The fields of a JSON object / Python dict. -/
abbrev Record := List (String × JValue)

/-- A flattened feature row: named, nullable cells in a fixed order. -/
abbrev Row := List (String × JValue)

/-- Python truthiness of a JSON value (`bool(v)`). -/
def isTruthy : JValue → Bool
  | JValue.null => false
  | JValue.bool b => b
  | JValue.num q => decide (q ≠ 0)
  | JValue.str s => !s.isEmpty
  | JValue.arr xs => !xs.isEmpty
  | JValue.obj fs => !fs.isEmpty

/-- Whether a JSON value is an object (a Python dict). -/
def isObj : JValue → Bool
  | JValue.obj _ => true
  | _ => false

/-- The fields of a JSON object, `[]` on anything else. -/
def objFields : JValue → Record
  | JValue.obj fs => fs
  | _ => []

/-- Python `record.get(k)` on a dict: the bound value, or `None` when the
key is missing. -/
def pyGet (r : Record) (k : String) : JValue :=
  (List.lookup k r).getD JValue.null

/-- `FEATURE_COLUMNS` from `train_rugpull.py`: the single shared feature
column list (imported by `score_rugpull.py`). -/
def FEATURE_COLUMNS : List String :=
  ["score",
   "rug_risk_score",
   "rug_holders_pct",
   "rug_liquidity_usd",
   "rug_vol24h_usd",
   "price_impact_pct",
   "volatility_range_pct",
   "volatility_chop_pct",
   "signal_score",
   "momentum_score",
   "momentum_pct_short",
   "momentum_pct_long"]

/-- All-or-nothing effectful map over a list, the semantics of a Python
list comprehension (or append loop) whose body may raise: the first
raised error aborts the whole computation and no partial list escapes. -/
def mapE (f : α → Except String β) : List α → Except String (List β)
  | [] => Except.ok []
  | a :: as =>
    match f a, mapE f as with
    | Except.ok b, Except.ok bs => Except.ok (b :: bs)
    | Except.error e, _ => Except.error e
    | Except.ok _, Except.error e => Except.error e

/-- Python `line.strip()`: drop leading and trailing whitespace. -/
def pyStrip (s : String) : String :=
  String.mk (((s.data.dropWhile Char.isWhitespace).reverse.dropWhile
    Char.isWhitespace).reverse)

/-- `load_jsonl` from `train_rugpull.py`, over the file's lines: strip each
line, skip blank lines, parse the rest in order; a parse failure
(`json.loads` raising) aborts the whole load.  `parse` abstracts
`json.loads` on a single line. -/
def load_jsonl (parse : String → Except String JValue) :
    List String → Except String (List JValue)
  | [] => Except.ok []
  | line :: rest =>
    let s := pyStrip line
    if s.isEmpty then load_jsonl parse rest
    else
      match parse s, load_jsonl parse rest with
      | Except.ok v, Except.ok vs => Except.ok (v :: vs)
      | Except.error e, _ => Except.error e
      | Except.ok _, Except.error e => Except.error e

/-- `record.get(k) or {}` followed by attribute access `.get` on the
result: a missing or falsy value falls back to the empty dict; a truthy
non-dict makes the subsequent `.get` raise `AttributeError`.  Returns the
dict's fields on success. -/
def containerE (r : Record) (k : String) : Except String Record :=
  match (if isTruthy (pyGet r k) then pyGet r k else JValue.obj []) with
  | JValue.obj fs => Except.ok fs
  | _ => Except.error "AttributeError: object has no attribute get"

/-- `d.get(k)` on a dict already known to be a dict. -/
def dGet (fs : Record) (k : String) : JValue :=
  (List.lookup k fs).getD JValue.null

/-- `flatten_record` from `train_rugpull.py`: project one record onto the
12 named features; nested containers default to an empty dict when
missing or falsy; `.get` on a truthy non-dict raises.  A non-dict record
makes the very first `record.get` raise. -/
def flatten_record (record : JValue) : Except String Row :=
  match record with
  | JValue.obj r =>
    match containerE r "rugRisk", containerE r "volatility",
          containerE r "signal", containerE r "momentum" with
    | Except.ok rug, Except.ok volatility, Except.ok signal, Except.ok momentum =>
      Except.ok
        [("score", pyGet r "score"),
         ("rug_risk_score", dGet rug "score"),
         ("rug_holders_pct", dGet rug "holdersPct"),
         ("rug_liquidity_usd", dGet rug "liquidityUsd"),
         ("rug_vol24h_usd", dGet rug "vol24hUsd"),
         ("price_impact_pct", pyGet r "priceImpactPct"),
         ("volatility_range_pct", dGet volatility "rangePct"),
         ("volatility_chop_pct", dGet volatility "chopPct"),
         ("signal_score", dGet signal "score"),
         ("momentum_score", dGet momentum "score"),
         ("momentum_pct_short", dGet momentum "pctShort"),
         ("momentum_pct_long", dGet momentum "pctLong")]
    | Except.error e, _, _, _ => Except.error e
    | _, Except.error e, _, _ => Except.error e
    | _, _, Except.error e, _ => Except.error e
    | _, _, _, Except.error e => Except.error e
  | _ => Except.error "AttributeError: object has no attribute get"

/-- `build_dataframe` from `train_rugpull.py`: one flattened row per
record, in order (`pd.DataFrame(flat)` keeps the rows in list order and
takes its columns from the uniform dict keys). -/
def build_dataframe (records : List JValue) : Except String (List Row) :=
  mapE flatten_record records

/-- Decimal string accepted by `float(...)` (digits with an optional
fraction part), as a natural-number folding of the digit list. -/
def digitsVal (ds : List Char) : Nat :=
  ds.foldl (fun a c => a * 10 + (c.toNat - 48)) 0

/-- Split a character list at every `'.'`, keeping empty parts. -/
def splitParts : List Char → List (List Char)
  | [] => [[]]
  | c :: rest =>
    let ps := splitParts rest
    if c = '.' then [] :: ps
    else
      match ps with
      | p :: ps' => (c :: p) :: ps'
      | [] => [[c]]

/-- Conversion of a decimal string literal to a rational, `none` when the
string is not a plain decimal number.  Models numpy's string-to-float
conversion used by `pd.Series(..., dtype="float")` on the common decimal
forms. -/
def strToRat? (s : String) : Option Rat :=
  let core := fun (body : List Char) =>
    match splitParts body with
    | [a] =>
      if 0 < a.length ∧ a.all Char.isDigit then
        some ((digitsVal a : Rat))
      else none
    | [a, b] =>
      if 0 < a.length + b.length ∧ a.all Char.isDigit ∧ b.all Char.isDigit then
        some ((digitsVal a : Rat) + (digitsVal b : Rat) / ((10 : Rat) ^ b.length))
      else none
    | _ => none
  match s.data with
  | '-' :: rest => (core rest).map (fun q => -q)
  | '+' :: rest => core rest
  | cs => core cs

/-- One cell of `pd.Series(labels, dtype="float")`: `None` becomes the
missing marker NaN (here `none`), numbers and booleans convert, a numeric
string converts, and any other value raises (`could not convert ...`). -/
def seriesFloatCell : JValue → Except String (Option Rat)
  | JValue.null => Except.ok none
  | JValue.bool b => Except.ok (some (if b then 1 else 0))
  | JValue.num q => Except.ok (some q)
  | JValue.str s =>
    match strToRat? s with
    | some q => Except.ok (some q)
    | none => Except.error ("could not convert string to float: " ++ s)
  | JValue.arr _ => Except.error "could not convert array to float"
  | JValue.obj _ => Except.error "could not convert object to float"

/-- One record's contribution to `build_labels`: `record.get(label_field)`
(raising on a non-dict record) followed by that cell's float conversion.
The Python code first collects all `get` results and only then converts
the series; either phase raising aborts `build_labels`, so the two phases
are fused per record here. -/
def labelCell (label_field : String) (record : JValue) : Except String (Option Rat) :=
  match record with
  | JValue.obj r => seriesFloatCell (pyGet r label_field)
  | _ => Except.error "AttributeError: object has no attribute get"

/-- `build_labels` from `train_rugpull.py`: one nullable float label per
record, in order; `pd.Series(labels, dtype="float")` raises on a value it
cannot convert. -/
def build_labels (records : List JValue) (label_field : String) :
    Except String (List (Option Rat)) :=
  mapE (labelCell label_field) records

/-- `fillna(0)` on one cell: a null cell becomes the number 0. -/
def fillCell : JValue → JValue
  | JValue.null => JValue.num 0
  | v => v

/-- `fillna(0)` on one row. -/
def fillRow (row : Row) : Row :=
  row.map (fun p => (p.1, fillCell p.2))

/-- `df[cols]` on one row: select the named columns in the given order
(every selected column exists in the rows built by `build_dataframe`). -/
def selectColumns (cols : List String) (row : Row) : Row :=
  cols.map (fun c => (c, (List.lookup c row).getD JValue.null))

/-- The per-record feature row the Trainer feeds to the model: the row of
`build_dataframe` after `fillna(0)` and `[FEATURE_COLUMNS]` selection
(`train_rugpull.py`, the `train_test_split` call site). -/
def train_feature_row (record : JValue) : Except String Row :=
  match flatten_record record with
  | Except.ok row => Except.ok (selectColumns FEATURE_COLUMNS (fillRow row))
  | Except.error e => Except.error e

/-- The per-record feature row the Scorer feeds to the model: the row of
`build_dataframe` after `fillna(0)` and `[FEATURE_COLUMNS]` selection
(`score_rugpull.py`, the `predict_proba` call site). -/
def score_feature_row (record : JValue) : Except String Row :=
  match flatten_record record with
  | Except.ok row => Except.ok (selectColumns FEATURE_COLUMNS (fillRow row))
  | Except.error e => Except.error e

/-- Python `int(x)` on a float label: truncation toward zero
(`labels.astype(int)`). -/
def ratTruncInt (q : Rat) : Int :=
  if q.num < 0 then -(((-q.num).toNat / q.den : Nat) : Int)
  else ((q.num.toNat / q.den : Nat) : Int)

/-- The int-cast labels of the rows that survive the `labels.notna()`
mask, in row order (`labels.loc[mask].astype(int)`). -/
def maskedY (labels : List (Option Rat)) : List Int :=
  (labels.enum.filter (fun p => p.2.isSome)).map (fun p => ratTruncInt (p.2.getD 0))

/-- `labels.nunique()`: the number of distinct label values. -/
def nunique (y : List Int) : Nat :=
  y.dedup.length

/-- sklearn's `ceil(test_size * n_samples)` giving the test row count for a
float `test_size`. -/
def ratCeilNat (q : Rat) : Nat :=
  ((q.num + (q.den : Int) - 1) / (q.den : Int)).toNat

/-- The number of test rows of a split of `n` rows. -/
def nTestOf (test_size : Rat) (n : Nat) : Nat :=
  ratCeilNat (test_size * (n : Rat))

/-- The distinct label classes, as sklearn's stratifier sees them. -/
def classesOf (y : List Int) : List Int :=
  y.dedup

/-- The row positions of one label class, in row order. -/
def classIdx (y : List Int) (c : Int) : List Nat :=
  (List.range y.length).filter (fun i => y.getD i 0 == c)

/-- Proportional (floored) share of the test rows owed to one class. -/
def baseAlloc (test_size : Rat) (y : List Int) (c : Int) : Nat :=
  (classIdx y c).length * nTestOf test_size y.length / y.length

/-- Test rows left over after every class got its floored share. -/
def allocRem (test_size : Rat) (y : List Int) : Nat :=
  nTestOf test_size y.length - ((classesOf y).map (baseAlloc test_size y)).sum

/-- Test rows allotted to one class: the floored proportional share plus
at most one leftover row (sklearn distributes the leftovers by fractional
part with RNG tie-breaking; which classes get the extra row is absorbed
into the modelled nondeterminism). -/
def alloc (test_size : Rat) (y : List Int) (c : Int) : Nat :=
  baseAlloc test_size y c +
    (if (classesOf y).indexOf c < allocRem test_size y then 1 else 0)

/-- sklearn's stratified `train_test_split` on the label list `y`
(`random_state=42, stratify=labels`): per class, the seeded RNG permutes
that class's row positions and the first `alloc` of them go to the test
partition, the rest to the train partition.  `perm` abstracts the seeded
RNG permutation; the result is `(train positions, test positions)`. -/
def stratified_split (perm : List Nat → List Nat) (test_size : Rat)
    (y : List Int) : List Nat × List Nat :=
  ((classesOf y).flatMap (fun c => (perm (classIdx y c)).drop (alloc test_size y c)),
   (classesOf y).flatMap (fun c => (perm (classIdx y c)).take (alloc test_size y c)))

/-- The flags `train_rugpull.py` registers on its argument parser. -/
def trainer_cli_flags : List String :=
  ["--data", "--label-field", "--model-out", "--metrics-out", "--test-size"]

/-- The `random_state` passed to `train_test_split` in `train_rugpull.py`:
the literal 42, taken from no CLI flag. -/
def trainer_seed : Nat := 42

/-- The parsed CLI arguments of the Training CLI (one field per
`add_argument` in `train_rugpull.py`; argparse defaults are
`rug_label`, `rugpull_model.joblib`, `metrics.json` and `0.2`). -/
structure TrainerArgs where
  data : String
  label_field : String
  model_out : String
  metrics_out : String
  test_size : Rat

/-- `main` of `train_rugpull.py` up to the model fit: load, guard against
an empty dataset, build labels and features, mask unlabeled rows, guard
against a degenerate label set, stratified-split with the fixed seed 42,
and fit on the train partition.  `rng` abstracts numpy's seeded RNG (a
permutation per seed), `fit` abstracts
`HistGradientBoostingClassifier(max_depth=5, learning_rate=0.1).fit`; the
result carries the fitted model and the held-out test partition that the
metrics step scores (metric arithmetic and artifact writes are outside
the value model). -/
def trainer_main {M : Type} (parse : String → Except String JValue)
    (rng : Nat → List Nat → List Nat)
    (fit : List Row → List Int → M)
    (args : TrainerArgs) (lines : List String) :
    Except String (M × List Row × List Int) :=
  match load_jsonl parse lines with
  | Except.error e => Except.error e
  | Except.ok records =>
    if records.isEmpty then Except.error "No records found in dataset." else
    match build_labels records args.label_field with
    | Except.error e => Except.error e
    | Except.ok labels =>
      match build_dataframe records with
      | Except.error e => Except.error e
      | Except.ok feature_df =>
        let xMasked := ((labels.zip feature_df).filter (fun p => p.1.isSome)).map
          (fun p => selectColumns FEATURE_COLUMNS (fillRow p.2))
        let y := maskedY labels
        if nunique y < 2 then
          Except.error "Labels must contain at least two classes."
        else
          let ti := stratified_split (rng trainer_seed) args.test_size y
          let xTrain := ti.1.map (fun i => xMasked.getD i [])
          let yTrain := ti.1.map (fun i => y.getD i 0)
          let xTest := ti.2.map (fun i => xMasked.getD i [])
          let yTest := ti.2.map (fun i => y.getD i 0)
          Except.ok (fit xTrain yTrain, xTest, yTest)

/-- One output line of `score_rugpull.py`: the identifying projection of
the record plus the model score (`record` is already known to be a dict
because `flatten_record` succeeded on it earlier in the run). -/
def scorePayload (record : JValue) (score : Rat) : List (String × JValue) :=
  [("t", dGet (objFields record) "t"),
   ("address", dGet (objFields record) "address"),
   ("name", dGet (objFields record) "name"),
   ("model_score", JValue.num score)]

/-- `main` of `score_rugpull.py`: load, guard against an empty dataset,
flatten with `fillna(0)`, score every row with the loaded model
(`predict` abstracts `model.predict_proba(...)[:, 1]` on one feature
row), and emit one payload per record by zipping records with scores. -/
def scorer_main (parse : String → Except String JValue)
    (predict : Row → Rat) (lines : List String) :
    Except String (List (List (String × JValue))) :=
  match load_jsonl parse lines with
  | Except.error e => Except.error e
  | Except.ok records =>
    if records.isEmpty then Except.error "No records found in dataset." else
    match build_dataframe records with
    | Except.error e => Except.error e
    | Except.ok flat =>
      let feature_df := flat.map fillRow
      let proba := feature_df.map (fun row => predict (selectColumns FEATURE_COLUMNS row))
      Except.ok (List.zipWith scorePayload records proba)

/-- The four nested container keys `flatten_record` reads. -/
def containerKeys : List String :=
  ["rugRisk", "volatility", "signal", "momentum"]

/-- The feature columns drawn from each nested container. -/
def featuresOf : String → List String
  | "rugRisk" => ["rug_risk_score", "rug_holders_pct", "rug_liquidity_usd", "rug_vol24h_usd"]
  | "volatility" => ["volatility_range_pct", "volatility_chop_pct"]
  | "signal" => ["signal_score"]
  | "momentum" => ["momentum_score", "momentum_pct_short", "momentum_pct_long"]
  | _ => []

/-- A well-formed Record per the data model: a mapping whose nested
container values, when present and truthy, are themselves mappings (the
code additionally tolerates falsy non-mapping values, which fall back to
the empty dict). -/
def recordWF : JValue → Bool
  | JValue.obj r =>
    containerKeys.all (fun k =>
      match List.lookup k r with
      | none => true
      | some v => !isTruthy v || isObj v)
  | _ => false

/-- The dict a container expression `record.get(k) or {}` denotes, as a
field list (meaningful when the record is well formed). -/
def crow (r : Record) (k : String) : Record :=
  objFields (if isTruthy (pyGet r k) then pyGet r k else JValue.obj [])

/-- The feature row `flatten_record` returns on a well-formed record. -/
def flatRow (r : Record) : Row :=
  [("score", pyGet r "score"),
   ("rug_risk_score", dGet (crow r "rugRisk") "score"),
   ("rug_holders_pct", dGet (crow r "rugRisk") "holdersPct"),
   ("rug_liquidity_usd", dGet (crow r "rugRisk") "liquidityUsd"),
   ("rug_vol24h_usd", dGet (crow r "rugRisk") "vol24hUsd"),
   ("price_impact_pct", pyGet r "priceImpactPct"),
   ("volatility_range_pct", dGet (crow r "volatility") "rangePct"),
   ("volatility_chop_pct", dGet (crow r "volatility") "chopPct"),
   ("signal_score", dGet (crow r "signal") "score"),
   ("momentum_score", dGet (crow r "momentum") "score"),
   ("momentum_pct_short", dGet (crow r "momentum") "pctShort"),
   ("momentum_pct_long", dGet (crow r "momentum") "pctLong")]

/-- The float the label series holds for one convertible cell: `none` is
the missing marker NaN. -/
def cellValue : JValue → Option Rat
  | JValue.null => none
  | JValue.bool b => some (if b then 1 else 0)
  | JValue.num q => some q
  | JValue.str s => strToRat? s
  | _ => none

/-- Whether `pd.Series(..., dtype="float")` can convert one cell without
raising. -/
def convertibleCell : JValue → Bool
  | JValue.null => true
  | JValue.bool _ => true
  | JValue.num _ => true
  | JValue.str s => (strToRat? s).isSome
  | _ => false

section Lemmas

/-- A value that is falsy or a dict passes the container expression
without raising, denoting its field list. -/
lemma container_ok_cases (v : JValue)
    (h : (!isTruthy v || isObj v) = true) :
    (match (if isTruthy v then v else JValue.obj []) with
     | JValue.obj fs => Except.ok fs
     | _ => (Except.error "AttributeError: object has no attribute get" :
         Except String Record))
    = Except.ok (objFields (if isTruthy v then v else JValue.obj [])) := by
  by_cases ht : isTruthy v = true
  · have hobj : isObj v = true := by simpa [ht] using h
    rcases v with _ | b | q | s | xs | fs <;> simp [isObj] at hobj
    rw [if_pos ht]
    rfl
  · have hf : isTruthy v = false := by
      rcases h' : isTruthy v
      · rfl
      · exact absurd h' ht
    simp [hf, objFields]

/-- A container whose stored value is missing, falsy or a dict yields its
field list rather than raising. -/
lemma containerE_eq_ok (r : Record) (k : String)
    (h : (!isTruthy (pyGet r k) || isObj (pyGet r k)) = true) :
    containerE r k = Except.ok (crow r k) := by
  unfold containerE crow
  exact container_ok_cases (pyGet r k) h

/-- A missing container key denotes the empty dict. -/
lemma crow_of_absent (r : Record) (k : String) (h : List.lookup k r = none) :
    crow r k = [] := by
  unfold crow pyGet
  rw [h]
  rfl

/-- On a well-formed record, `flatten_record` succeeds and returns the
canonical flattened row. -/
lemma flatten_record_wf (r : Record) (h : recordWF (JValue.obj r) = true) :
    flatten_record (JValue.obj r) = Except.ok (flatRow r) := by
  have hall : ∀ k ∈ containerKeys,
      (match List.lookup k r with
       | none => true
       | some v => !isTruthy v || isObj v) = true := by
    simpa [recordWF, List.all_eq_true] using h
  have hc : ∀ k ∈ containerKeys, containerE r k = Except.ok (crow r k) := by
    intro k hk
    apply containerE_eq_ok
    have := hall k hk
    unfold pyGet
    rcases hl : List.lookup k r with _ | v
    · simp [isTruthy, isObj]
    · rw [hl] at this
      simpa using this
  have h1 := hc "rugRisk" (by simp [containerKeys])
  have h2 := hc "volatility" (by simp [containerKeys])
  have h3 := hc "signal" (by simp [containerKeys])
  have h4 := hc "momentum" (by simp [containerKeys])
  simp only [flatten_record]
  rw [h1, h2, h3, h4]
  rfl

/-- A falsy container value falls back to the empty dict. -/
lemma containerE_falsy (r : Record) (k : String)
    (h : isTruthy (pyGet r k) = false) :
    containerE r k = Except.ok [] := by
  unfold containerE
  rw [h]
  rfl

/-- `flatten_record` only looks at a record through its four container
expressions and the two scalar fields. -/
lemma flatten_record_congr (r₁ r₂ : Record)
    (h1 : containerE r₁ "rugRisk" = containerE r₂ "rugRisk")
    (h2 : containerE r₁ "volatility" = containerE r₂ "volatility")
    (h3 : containerE r₁ "signal" = containerE r₂ "signal")
    (h4 : containerE r₁ "momentum" = containerE r₂ "momentum")
    (hsc : pyGet r₁ "score" = pyGet r₂ "score")
    (hpi : pyGet r₁ "priceImpactPct" = pyGet r₂ "priceImpactPct") :
    flatten_record (JValue.obj r₁) = flatten_record (JValue.obj r₂) := by
  simp only [flatten_record]
  rw [h1, h2, h3, h4, hsc, hpi]

/-- Removing a key from a dict leaves lookups of other keys unchanged. -/
lemma lookup_filter_ne (r : Record) (k a : String) (h : a ≠ k) :
    List.lookup a (r.filter (fun p => p.1 != k)) = List.lookup a r := by
  induction r with
  | nil => rfl
  | cons p r ih =>
    by_cases hpk : p.1 = k
    · have : (p.1 != k) = false := by simp [hpk]
      simp only [List.filter, this, ih]
      have : (a == p.1) = false := by simp [hpk, h]
      simp [List.lookup, this]
    · have : (p.1 != k) = true := by simp [hpk]
      simp only [List.filter, this]
      by_cases hap : a = p.1
      · simp [List.lookup, hap]
      · have h' : (a == p.1) = false := by simp [hap]
        simp [List.lookup, h', ih]

/-- Removing a key from a dict makes lookups of that key miss. -/
lemma lookup_filter_self (r : Record) (k : String) :
    List.lookup k (r.filter (fun p => p.1 != k)) = none := by
  induction r with
  | nil => rfl
  | cons p r ih =>
    by_cases hpk : p.1 = k
    · have : (p.1 != k) = false := by simp [hpk]
      simp [List.filter, this, ih]
    · have : (p.1 != k) = true := by simp [hpk]
      have h' : (k == p.1) = false := by
        rw [beq_eq_false_iff_ne]
        exact fun h => hpk h.symm
      simp [List.filter, this, List.lookup, h', ih]

end Lemmas

section MapLemmas

/-- `mapE` over pointwise-succeeding elements is the pure map. -/
lemma mapE_ok_of_all {α β : Type} {f : α → Except String β} {g : α → β}
    (l : List α) (h : ∀ a ∈ l, f a = Except.ok (g a)) :
    mapE f l = Except.ok (l.map g) := by
  induction l with
  | nil => rfl
  | cons a as ih =>
    have ha := h a (List.mem_cons_self a as)
    have ih' := ih (fun b hb => h b (List.mem_cons_of_mem _ hb))
    simp [mapE, ha, ih']

/-- A successful `mapE` yields one output per input. -/
lemma mapE_length {α β : Type} {f : α → Except String β} :
    ∀ {l : List α} {bs : List β}, mapE f l = Except.ok bs → bs.length = l.length := by
  intro l
  induction l with
  | nil =>
    intro bs h
    simp [mapE] at h
    simp [← h]
  | cons a as ih =>
    intro bs h
    unfold mapE at h
    rcases ha : f a with e | b <;> rw [ha] at h
    · exact absurd h (by simp)
    · rcases has : mapE f as with e | bs' <;> rw [has] at h
      · exact absurd h (by simp)
      · have := ih has
        simp at h
        simp [← h, this]

/-- One failing element aborts the whole `mapE`: no partial list. -/
lemma mapE_error_of_mem {α β : Type} {f : α → Except String β} :
    ∀ {l : List α} {a : α}, a ∈ l → (∃ e, f a = Except.error e) →
      ∃ e', mapE f l = Except.error e' := by
  intro l
  induction l with
  | nil => intro a ha; exact absurd ha (by simp)
  | cons b bs ih =>
    intro a ha he
    rcases List.mem_cons.mp ha with rfl | hmem
    · rcases he with ⟨e, he⟩
      exact ⟨e, by simp [mapE, he]⟩
    · rcases ih hmem he with ⟨e', he'⟩
      rcases hb : f b with e'' | v
      · exact ⟨e'', by simp [mapE, hb]⟩
      · exact ⟨e', by simp [mapE, hb, he']⟩

end MapLemmas

section LoadLemmas

/-- `load_jsonl` is exactly: strip the lines, drop the blank ones, parse
the rest all-or-nothing, in order. -/
lemma load_jsonl_eq (parse : String → Except String JValue) (lines : List String) :
    load_jsonl parse lines
      = mapE parse ((lines.map pyStrip).filter (fun s => !s.isEmpty)) := by
  induction lines with
  | nil => rfl
  | cons l ls ih =>
    by_cases hb : (pyStrip l).isEmpty = true
    · simp [load_jsonl, hb, ih]
    · have hb' : (pyStrip l).isEmpty = false := by
        rcases h' : (pyStrip l).isEmpty
        · rfl
        · exact absurd h' hb
      simp only [load_jsonl, hb', mapE, ih, Bool.not_false, List.map_cons,
        List.filter_cons_of_pos, if_false]
      cases parse (pyStrip l) <;>
        cases mapE parse ((ls.map pyStrip).filter (fun s => !s.isEmpty)) <;>
        simp

/-- A dataset of only blank lines strips and filters to nothing. -/
lemma filter_blank_nil (lines : List String)
    (h : ∀ l ∈ lines, (pyStrip l).isEmpty = true) :
    (lines.map pyStrip).filter (fun s => !s.isEmpty) = [] := by
  apply List.filter_eq_nil_iff.mpr
  intro s hs
  rcases List.mem_map.mp hs with ⟨l, hl, rfl⟩
  simp [h l hl]

/-- Only blank lines means `load_jsonl` returns no records. -/
lemma load_jsonl_blank (parse : String → Except String JValue) (lines : List String)
    (h : ∀ l ∈ lines, (pyStrip l).isEmpty = true) :
    load_jsonl parse lines = Except.ok [] := by
  rw [load_jsonl_eq, filter_blank_nil lines h]
  rfl

end LoadLemmas

section FlattenLemmas

/-- A container expression over a falsy stored value denotes the empty
dict. -/
lemma crow_of_falsy (r : Record) (k : String)
    (h : isTruthy (pyGet r k) = false) : crow r k = [] := by
  unfold crow
  rw [h]
  rfl

/-- Removing a key from a dict leaves `record.get` of other keys
unchanged. -/
lemma pyGet_filter_ne (r : Record) (k a : String) (h : a ≠ k) :
    pyGet (r.filter (fun p => p.1 != k)) a = pyGet r a := by
  unfold pyGet
  rw [lookup_filter_ne r k a h]

/-- Removing a key from a dict makes `record.get` of that key `None`. -/
lemma pyGet_filter_self (r : Record) (k : String) :
    pyGet (r.filter (fun p => p.1 != k)) k = JValue.null := by
  unfold pyGet
  rw [lookup_filter_self]
  rfl

/-- A container expression only depends on the record through
`record.get` of its key. -/
lemma containerE_congr (r₁ r₂ : Record) (k : String)
    (h : pyGet r₁ k = pyGet r₂ k) : containerE r₁ k = containerE r₂ k := by
  unfold containerE
  rw [h]

/-- When a container denotes the empty dict, every feature drawn from it
is null in the canonical flattened row. -/
lemma flatRow_null_features (r : Record) (k : String) (hk : k ∈ containerKeys)
    (hcrow : crow r k = []) :
    ∀ f ∈ featuresOf k, List.lookup f (flatRow r) = some JValue.null := by
  have hcases : k = "rugRisk" ∨ k = "volatility" ∨ k = "signal" ∨ k = "momentum" := by
    simpa [containerKeys] using hk
  intro f hf
  rcases hcases with rfl | rfl | rfl | rfl <;>
    simp [featuresOf] at hf <;>
    rcases hf with rfl | rfl | rfl | rfl <;>
    simp [flatRow, dGet, hcrow, List.lookup]

end FlattenLemmas

section MoreLemmas

/-- Pointwise success (with unknown values) lifts through `mapE`. -/
lemma mapE_isOk_of_all {α β : Type} {f : α → Except String β} :
    ∀ (l : List α), (∀ a ∈ l, ∃ b, f a = Except.ok b) →
      ∃ bs, mapE f l = Except.ok bs ∧ bs.length = l.length := by
  intro l
  induction l with
  | nil => exact fun _ => ⟨[], rfl, rfl⟩
  | cons a as ih =>
    intro h
    rcases h a (List.mem_cons_self a as) with ⟨b, hb⟩
    rcases ih (fun x hx => h x (List.mem_cons_of_mem _ hx)) with ⟨bs, hbs, hlen⟩
    exact ⟨b :: bs, by simp [mapE, hb, hbs], by simp [hlen]⟩

/-- `getD` through `map`, inside bounds. -/
lemma getD_map_lt {α β : Type} (g : α → β) :
    ∀ (l : List α) (i : Nat), i < l.length → ∀ (d : β) (d' : α),
      (l.map g).getD i d = g (l.getD i d') := by
  intro l
  induction l with
  | nil => intro i h; exact absurd h (by simp)
  | cons a as ih =>
    intro i h d d'
    cases i with
    | zero => rfl
    | succ n => simpa [List.getD] using ih n (by simpa using h) d d'

/-- `getD` through `zipWith`, inside bounds. -/
lemma getD_zipWith {α β γ : Type} (f : α → β → γ) :
    ∀ (as : List α) (bs : List β) (i : Nat), i < as.length → i < bs.length →
      ∀ (d : γ) (da : α) (db : β),
      (List.zipWith f as bs).getD i d = f (as.getD i da) (bs.getD i db) := by
  intro as
  induction as with
  | nil => intro bs i h; exact absurd h (by simp)
  | cons a as ih =>
    intro bs i ha hb d da db
    cases bs with
    | nil => exact absurd hb (by simp)
    | cons b bs =>
      cases i with
      | zero => rfl
      | succ n =>
        simpa [List.getD] using
          ih bs n (by simpa using ha) (by simpa using hb) d da db

/-- The payload a successful container expression carries is its `crow`. -/
lemma containerE_ok_inv {r : Record} {k : String} {fs : Record}
    (h : containerE r k = Except.ok fs) : fs = crow r k := by
  unfold containerE at h
  unfold crow
  rcases hv : (if isTruthy (pyGet r k) then pyGet r k else JValue.obj [])
    with _ | b | q | s | xs | fs' <;> rw [hv] at h <;> simp at h
  rw [← h]
  rfl

/-- A successful `flatten_record` returns exactly the canonical row. -/
lemma flatten_ok_inv {r : Record} {row : Row}
    (h : flatten_record (JValue.obj r) = Except.ok row) : row = flatRow r := by
  simp only [flatten_record] at h
  rcases h1 : containerE r "rugRisk" with e1' | rug <;>
    rcases h2 : containerE r "volatility" with e2' | vol <;>
    rcases h3 : containerE r "signal" with e3' | sig <;>
    rcases h4 : containerE r "momentum" with e4' | mom <;>
    rw [h1, h2, h3, h4] at h <;> simp at h
  have e1 := containerE_ok_inv h1
  have e2 := containerE_ok_inv h2
  have e3 := containerE_ok_inv h3
  have e4 := containerE_ok_inv h4
  subst e1 e2 e3 e4
  rw [← h]
  rfl

/-- Selecting columns yields exactly those column names, in order. -/
lemma selectColumns_keys (cols : List String) (row : Row) :
    (selectColumns cols row).map Prod.fst = cols := by
  induction cols with
  | nil => rfl
  | cons c cs ih =>
    simp only [selectColumns, List.map_cons] at ih ⊢
    rw [ih]

/-- Selecting columns yields one cell per requested column. -/
lemma selectColumns_length (cols : List String) (row : Row) :
    (selectColumns cols row).length = cols.length := by
  unfold selectColumns
  exact List.length_map _ _

/-- A convertible cell converts to its `cellValue` without raising. -/
lemma seriesFloatCell_of_convertible (v : JValue) (h : convertibleCell v = true) :
    seriesFloatCell v = Except.ok (cellValue v) := by
  rcases v with _ | b | q | s | xs | fs
  · rfl
  · rfl
  · rfl
  · simp only [seriesFloatCell, cellValue]
    rcases hs : strToRat? s with _ | q
    · simp [convertibleCell, hs] at h
    · rfl
  · simp [convertibleCell] at h
  · simp [convertibleCell] at h

end MoreLemmas

/-- C1: training and scoring consume identical feature rows: both call
sites select the one shared `FEATURE_COLUMNS` constant over the output of
the same `flatten_record`, so for every record the two selected rows are
equal and carry the same 12 columns in the same order. -/
theorem C1_train_score_identical_columns (record : JValue) :
    train_feature_row record = score_feature_row record ∧
    (∀ row, train_feature_row record = Except.ok row →
      row.map Prod.fst = FEATURE_COLUMNS ∧ row.length = 12) := by
  constructor
  · rfl
  · intro row hrow
    unfold train_feature_row at hrow
    rcases hf : flatten_record record with e | r0 <;> rw [hf] at hrow <;> simp at hrow
    rw [← hrow]
    exact ⟨selectColumns_keys _ _, by rw [selectColumns_length]; rfl⟩

/-- C1 witness: at the empty record both pipelines produce the same row
with exactly the 12 feature columns. -/
theorem C1_witness :
    train_feature_row (JValue.obj [])
        = score_feature_row (JValue.obj []) ∧
      (selectColumns FEATURE_COLUMNS (fillRow (flatRow []))).map Prod.fst
        = FEATURE_COLUMNS ∧
      (selectColumns FEATURE_COLUMNS (fillRow (flatRow []))).length = 12 :=
  ⟨(C1_train_score_identical_columns (JValue.obj [])).1,
   (C1_train_score_identical_columns (JValue.obj [])).2
     (selectColumns FEATURE_COLUMNS (fillRow (flatRow []))) rfl⟩

/-- C2: flattening a well-formed Record always succeeds, and every
feature drawn from a missing nested sub-object is null. -/
theorem C2_missing_containers_flatten_to_nulls (r : Record)
    (h : recordWF (JValue.obj r) = true) :
    ∃ row, flatten_record (JValue.obj r) = Except.ok row ∧
      ∀ k ∈ containerKeys, List.lookup k r = none →
        ∀ f ∈ featuresOf k, List.lookup f row = some JValue.null := by
  refine ⟨flatRow r, flatten_record_wf r h, ?_⟩
  intro k hk habs
  exact flatRow_null_features r k hk (crow_of_absent r k habs)

/-- C2 witness: the record with no sub-objects at all flattens with every
container feature null. -/
theorem C2_witness :
    recordWF (JValue.obj []) = true ∧
      ∃ row, flatten_record (JValue.obj []) = Except.ok row ∧
        ∀ k ∈ containerKeys, List.lookup k ([] : Record) = none →
          ∀ f ∈ featuresOf k, List.lookup f row = some JValue.null :=
  ⟨rfl, C2_missing_containers_flatten_to_nulls [] rfl⟩

/-- C10: a container key bound to null, False, 0 or an empty dict
flattens exactly as if the key were absent, every feature drawn from that
container being null, because the container expression falls back to the
empty dict on any falsy value. -/
theorem C10_falsy_container_same_as_absent (r : Record) (k : String) (v : JValue)
    (hk : k ∈ containerKeys) (hv : List.lookup k r = some v)
    (hfalsy : v = JValue.null ∨ v = JValue.bool false ∨ v = JValue.num 0 ∨
      v = JValue.obj []) :
    flatten_record (JValue.obj r)
        = flatten_record (JValue.obj (r.filter (fun p => p.1 != k))) ∧
      ∀ row, flatten_record (JValue.obj r) = Except.ok row →
        ∀ f ∈ featuresOf k, List.lookup f row = some JValue.null := by
  have htr : isTruthy v = false := by
    rcases hfalsy with rfl | rfl | rfl | rfl <;> rfl
  have hpy : pyGet r k = v := by
    unfold pyGet
    rw [hv]
    rfl
  have hfr : isTruthy (pyGet r k) = false := by rw [hpy]; exact htr
  have hff : isTruthy (pyGet (r.filter (fun p => p.1 != k)) k) = false := by
    rw [pyGet_filter_self]
    rfl
  have hcrow : crow r k = [] := crow_of_falsy r k hfr
  have hkc : k = "rugRisk" ∨ k = "volatility" ∨ k = "signal" ∨ k = "momentum" := by
    simpa [containerKeys] using hk
  constructor
  · rcases hkc with rfl | rfl | rfl | rfl <;>
      apply flatten_record_congr <;>
      first
        | rw [containerE_falsy _ _ hfr, containerE_falsy _ _ hff]
        | exact (containerE_congr _ _ _ (pyGet_filter_ne r _ _ (by decide))).symm
        | exact (pyGet_filter_ne r _ _ (by decide)).symm
  · intro row hrow f hf
    have hr := flatten_ok_inv hrow
    subst hr
    exact flatRow_null_features r k hk hcrow f hf

/-- C10 witness: a record holding a null `rugRisk` flattens exactly like
the record without the key. -/
theorem C10_witness :
    "rugRisk" ∈ containerKeys ∧
      flatten_record (JValue.obj [("rugRisk", JValue.null)])
        = flatten_record (JValue.obj
            (([("rugRisk", JValue.null)] : Record).filter
              (fun p => p.1 != "rugRisk"))) :=
  ⟨by simp [containerKeys],
   (C10_falsy_container_same_as_absent [("rugRisk", JValue.null)] "rugRisk"
      JValue.null (by simp [containerKeys]) rfl (Or.inl rfl)).1⟩

/-- C6 counterexample: a record whose label is the non-numeric string
"abc" makes label extraction raise (the float series conversion fails)
instead of passing through as a missing marker. -/
theorem C6_counterexample :
    build_labels [JValue.obj [("rug_label", JValue.str "abc")]] "rug_label"
      = Except.error "could not convert string to float: abc" := rfl

/-- C6 (amended): label extraction returns one nullable float label per
record, in order, with absent or null labels passing through as the
missing marker — provided every label value is convertible (null, absent,
boolean, number, or numeric string); a non-convertible label value (for
example an arbitrary string) raises at extraction time. -/
theorem C6_labels_parallel_nullable (records : List JValue) (field : String)
    (h : ∀ rec ∈ records, isObj rec = true ∧
      convertibleCell (pyGet (objFields rec) field) = true) :
    ∃ ls, build_labels records field = Except.ok ls ∧
      ls.length = records.length ∧
      (∀ i, i < records.length →
        ls.getD i none = cellValue (pyGet (objFields (records.getD i JValue.null)) field)) := by
  have hok : build_labels records field
      = Except.ok (records.map (fun rec => cellValue (pyGet (objFields rec) field))) := by
    apply mapE_ok_of_all
    intro rec hrec
    rcases h rec hrec with ⟨hobj, hconv⟩
    rcases rec with _ | b | q | s | xs | flds <;> simp [isObj] at hobj
    show seriesFloatCell (pyGet flds field) = _
    exact seriesFloatCell_of_convertible _ hconv
  refine ⟨_, hok, by simp, ?_⟩
  intro i hi
  exact getD_map_lt _ records i hi none JValue.null

/-- C6 amended witness: one record with no label field yields the single
missing marker. -/
theorem C6_witness :
    ∃ ls, build_labels [JValue.obj []] "rug_label" = Except.ok ls ∧
      ls.length = 1 ∧
      (∀ i, i < 1 →
        ls.getD i none
          = cellValue (pyGet (objFields (([JValue.obj []] : List JValue).getD i JValue.null)) "rug_label")) := by
  have h := C6_labels_parallel_nullable [JValue.obj []] "rug_label"
    (by
      intro rec hrec
      rcases List.mem_singleton.mp hrec with rfl
      exact ⟨rfl, rfl⟩)
  simpa using h

/-- C9: `load_jsonl` yields one record per non-blank line in file order
(blank lines skipped); the whole load is the all-or-nothing parse of the
stripped non-blank lines, so when every such line parses the result is
the ordered record list, and one bad line aborts the entire load with no
partial list. -/
theorem C9_load_jsonl_contract (parse : String → Except String JValue)
    (lines : List String) :
    load_jsonl parse lines
        = mapE parse ((lines.map pyStrip).filter (fun s => !s.isEmpty)) ∧
      ((∀ l ∈ lines, (pyStrip l).isEmpty = false →
          ∃ v, parse (pyStrip l) = Except.ok v) →
        ∃ vs, load_jsonl parse lines = Except.ok vs ∧
          vs.length = ((lines.map pyStrip).filter (fun s => !s.isEmpty)).length) ∧
      (∀ l ∈ lines, (pyStrip l).isEmpty = false →
        (∃ e, parse (pyStrip l) = Except.error e) →
        ∃ e', load_jsonl parse lines = Except.error e') := by
  refine ⟨load_jsonl_eq parse lines, ?_, ?_⟩
  · intro hok
    have hall : ∀ s ∈ (lines.map pyStrip).filter (fun s => !s.isEmpty),
        ∃ v, parse s = Except.ok v := by
      intro s hs
      rcases List.mem_filter.mp hs with ⟨hmem, hne⟩
      rcases List.mem_map.mp hmem with ⟨l, hl, rfl⟩
      exact hok l hl (by simpa using hne)
    rcases mapE_isOk_of_all _ hall with ⟨vs, hvs, hlen⟩
    exact ⟨vs, by rw [load_jsonl_eq]; exact hvs, hlen⟩
  · intro l hl hne he
    have hmem : pyStrip l ∈ (lines.map pyStrip).filter (fun s => !s.isEmpty) :=
      List.mem_filter.mpr ⟨List.mem_map.mpr ⟨l, hl, rfl⟩, by simp [hne]⟩
    rcases mapE_error_of_mem hmem he with ⟨e', he'⟩
    exact ⟨e', by rw [load_jsonl_eq]; exact he'⟩

/-- C9 witness: with a parser accepting only "\x7b\x7d", a file whose
third line is malformed makes the whole load fail. -/
theorem C9_witness :
    ∃ e', load_jsonl
        (fun s => if s = "{}" then Except.ok (JValue.obj [])
          else Except.error "Expecting value")
        ["{}", " ", "nope"]
      = Except.error e' :=
  (C9_load_jsonl_contract
      (fun s => if s = "{}" then Except.ok (JValue.obj [])
        else Except.error "Expecting value")
      ["{}", " ", "nope"]).2.2 "nope" (by simp) rfl ⟨"Expecting value", rfl⟩

/-- C8: a dataset yielding zero records (only blank lines) makes both the
Trainer and the Scorer abort with the explicit "no records" message
before any further processing. -/
theorem C8_empty_dataset_aborts {M : Type} (parse : String → Except String JValue)
    (rng : Nat → List Nat → List Nat) (fit : List Row → List Int → M)
    (args : TrainerArgs) (predict : Row → Rat) (lines : List String)
    (h : ∀ l ∈ lines, (pyStrip l).isEmpty = true) :
    trainer_main parse rng fit args lines
        = Except.error "No records found in dataset." ∧
      scorer_main parse predict lines
        = Except.error "No records found in dataset." := by
  have hload := load_jsonl_blank parse lines h
  constructor
  · unfold trainer_main
    rw [hload]
    rfl
  · unfold scorer_main
    rw [hload]
    rfl

/-- C8 witness: a file of one blank line aborts both entrypoints. -/
theorem C8_witness :
    trainer_main (fun _ => Except.ok JValue.null) (fun _ l => l)
        (fun _ _ => ()) ⟨"d", "rug_label", "m", "mj", 1⟩ [""]
        = Except.error "No records found in dataset." ∧
      scorer_main (fun _ => Except.ok JValue.null) (fun _ => 0) [""]
        = Except.error "No records found in dataset." :=
  C8_empty_dataset_aborts (fun _ => Except.ok JValue.null) (fun _ l => l)
    (fun _ _ => ()) ⟨"d", "rug_label", "m", "mj", 1⟩ (fun _ => 0) [""]
    (by intro l hl; rcases List.mem_singleton.mp hl with rfl; rfl)

/-- C7: when, after dropping unlabeled rows, fewer than two label classes
remain, the Trainer aborts with the descriptive message before the
classifier is ever fitted (the result is this error for every fit
function). -/
theorem C7_single_class_aborts_before_fit {M : Type}
    (parse : String → Except String JValue) (rng : Nat → List Nat → List Nat)
    (fit : List Row → List Int → M) (args : TrainerArgs) (lines : List String)
    (records : List JValue) (labels : List (Option Rat)) (feature_df : List Row)
    (hload : load_jsonl parse lines = Except.ok records)
    (hne : records ≠ [])
    (hlab : build_labels records args.label_field = Except.ok labels)
    (hdf : build_dataframe records = Except.ok feature_df)
    (hnu : nunique (maskedY labels) < 2) :
    trainer_main parse rng fit args lines
      = Except.error "Labels must contain at least two classes." := by
  rcases records with _ | ⟨r0, rs⟩
  · exact absurd rfl hne
  · unfold trainer_main
    rw [hload]
    simp only [List.isEmpty_cons, Bool.false_eq_true, if_false]
    rw [hlab, hdf]
    simp only []
    rw [if_pos hnu]

/-- C7 witness: a one-record dataset whose only label class is 1 makes
the Trainer abort before fitting. -/
theorem C7_witness :
    trainer_main (fun _ => Except.ok (JValue.obj [("rug_label", JValue.num 1)]))
        (fun _ l => l) (fun _ _ => ()) ⟨"d", "rug_label", "m", "mj", 1⟩ ["x"]
      = Except.error "Labels must contain at least two classes." :=
  C7_single_class_aborts_before_fit
    (fun _ => Except.ok (JValue.obj [("rug_label", JValue.num 1)]))
    (fun _ l => l) (fun _ _ => ()) ⟨"d", "rug_label", "m", "mj", 1⟩ ["x"]
    [JValue.obj [("rug_label", JValue.num 1)]] [some 1]
    [flatRow [("rug_label", JValue.num 1)]]
    rfl (by simp) rfl rfl (by decide)

/-- C3: the Scorer emits exactly one output line per input record, in
input order, each line carrying the `t`, `address`, `name` projection of
its record plus a model score; flattening never drops a row, so the
output count equals the input count. -/
theorem C3_scorer_one_line_per_record (parse : String → Except String JValue)
    (predict : Row → Rat) (lines : List String) (records : List JValue)
    (hload : load_jsonl parse lines = Except.ok records)
    (hne : records ≠ [])
    (hwf : ∀ rec ∈ records, recordWF rec = true) :
    ∃ outs, scorer_main parse predict lines = Except.ok outs ∧
      outs.length = records.length ∧
      ∀ i, i < records.length →
        ∃ p, outs.getD i [] = scorePayload (records.getD i JValue.null) p := by
  have hdf : build_dataframe records
      = Except.ok (records.map (fun rec => flatRow (objFields rec))) := by
    apply mapE_ok_of_all
    intro rec hrec
    have hw := hwf rec hrec
    rcases rec with _ | b | q | s | xs | flds
    · exact absurd hw (by simp [recordWF])
    · exact absurd hw (by simp [recordWF])
    · exact absurd hw (by simp [recordWF])
    · exact absurd hw (by simp [recordWF])
    · exact absurd hw (by simp [recordWF])
    · exact flatten_record_wf flds hw
  rcases records with _ | ⟨r0, rs⟩
  · exact absurd rfl hne
  · have hmain : scorer_main parse predict lines
        = Except.ok (List.zipWith scorePayload (r0 :: rs)
            ((((r0 :: rs).map (fun rec => flatRow (objFields rec))).map fillRow).map
              (fun row => predict (selectColumns FEATURE_COLUMNS row)))) := by
      simp only [scorer_main, hload, List.isEmpty_cons, Bool.false_eq_true, if_false]
      rw [hdf]
    refine ⟨_, hmain, ?_, ?_⟩
    · simp
    · intro i hi
      refine ⟨_, getD_zipWith scorePayload (r0 :: rs) _ i hi ?_ [] JValue.null 0⟩
      simpa using hi

/-- C3 witness: a single-record dataset scores to a single payload line. -/
theorem C3_witness :
    ∃ outs, scorer_main (fun _ => Except.ok (JValue.obj [])) (fun _ => 0) ["x"]
        = Except.ok outs ∧
      outs.length = ([JValue.obj []] : List JValue).length ∧
      ∀ i, i < ([JValue.obj []] : List JValue).length →
        ∃ p, outs.getD i []
          = scorePayload (([JValue.obj []] : List JValue).getD i JValue.null) p :=
  C3_scorer_one_line_per_record (fun _ => Except.ok (JValue.obj [])) (fun _ => 0)
    ["x"] [JValue.obj []] rfl (by simp)
    (by intro rec hrec; rcases List.mem_singleton.mp hrec with rfl; rfl)

/-- C5 counterexample: the Training CLI registers no flag for the random
seed — `train_rugpull.py` passes the literal 42 as `random_state` — so
the seed is not configurable by the caller. -/
theorem C5_counterexample :
    (¬ ∃ f ∈ trainer_cli_flags, f = "--seed" ∨ f = "--random-state") ∧
      trainer_seed = 42 := by
  constructor
  · simp [trainer_cli_flags]
  · rfl

/-- C5 (amended): the test-size fraction is caller-configurable through
`--test-size`, but the random seed is not: no seed flag exists and the
split always uses the fixed constant 42, so the Trainer's behaviour
depends on the RNG only through the seed-42 permutation and a run is
reproducible given identical inputs. -/
theorem C5_test_size_configurable_seed_fixed :
    "--test-size" ∈ trainer_cli_flags ∧
      "--seed" ∉ trainer_cli_flags ∧
      "--random-state" ∉ trainer_cli_flags ∧
      ∀ (M : Type) (parse : String → Except String JValue)
        (rng rng' : Nat → List Nat → List Nat) (fit : List Row → List Int → M)
        (args : TrainerArgs) (lines : List String),
        rng trainer_seed = rng' trainer_seed →
        trainer_main parse rng fit args lines
          = trainer_main parse rng' fit args lines := by
  refine ⟨by simp [trainer_cli_flags], by simp [trainer_cli_flags],
    by simp [trainer_cli_flags], ?_⟩
  intro M parse rng rng' fit args lines h
  unfold trainer_main
  rw [h]

/-- C5 witness: two RNGs that agree at seed 42 (and may disagree
elsewhere) drive the Trainer to the same result. -/
theorem C5_witness :
    "--test-size" ∈ trainer_cli_flags ∧
      trainer_main (fun _ => Except.ok JValue.null) (fun _ l => l)
          (fun _ _ => ()) ⟨"d", "rug_label", "m", "mj", 1⟩ ["x"]
        = trainer_main (fun _ => Except.ok JValue.null)
          (fun n l => if n = 0 then [] else l)
          (fun _ _ => ()) ⟨"d", "rug_label", "m", "mj", 1⟩ ["x"] :=
  ⟨(C5_test_size_configurable_seed_fixed).1,
   (C5_test_size_configurable_seed_fixed).2.2.2 Unit
     (fun _ => Except.ok JValue.null) (fun _ l => l)
     (fun n l => if n = 0 then [] else l) (fun _ _ => ())
     ⟨"d", "rug_label", "m", "mj", 1⟩ ["x"] rfl⟩


section SplitLemmas

/-- Concatenating two per-class flat-maps is a permutation of the
flat-map of per-class concatenations. -/
lemma flatMap_append_perm {γ α : Type} (cs : List γ) (f g : γ → List α) :
    List.Perm (cs.flatMap f ++ cs.flatMap g) (cs.flatMap (fun c => f c ++ g c)) := by
  induction cs with
  | nil => simp
  | cons c cs ih =>
    simp only [List.flatMap_cons]
    rw [List.append_assoc, List.append_assoc]
    apply List.Perm.append_left
    refine List.Perm.trans ?_ (List.Perm.append_left _ ih)
    rw [← List.append_assoc, ← List.append_assoc]
    exact List.Perm.append_right _ List.perm_append_comm

/-- Drop-then-take concatenation is a permutation of the list. -/
lemma drop_take_perm {α : Type} (n : Nat) (l : List α) :
    List.Perm (l.drop n ++ l.take n) l := by
  refine List.Perm.trans List.perm_append_comm ?_
  rw [List.take_append_drop]

/-- Pointwise permutations lift through flat-maps. -/
lemma flatMap_congr_perm {γ α : Type} (cs : List γ) (f g : γ → List α)
    (h : ∀ c ∈ cs, List.Perm (f c) (g c)) :
    List.Perm (cs.flatMap f) (cs.flatMap g) := by
  induction cs with
  | nil => simp
  | cons c cs ih =>
    simp only [List.flatMap_cons]
    exact List.Perm.append (h c (List.mem_cons_self c cs))
      (ih (fun c' hc' => h c' (List.mem_cons_of_mem _ hc')))

/-- Pointwise equal flat-map bodies give equal flat-maps. -/
lemma flatMap_congr_eq {γ α : Type} (cs : List γ) (f g : γ → List α)
    (h : ∀ c ∈ cs, f c = g c) : cs.flatMap f = cs.flatMap g := by
  induction cs with
  | nil => rfl
  | cons c cs ih =>
    simp only [List.flatMap_cons]
    rw [h c (List.mem_cons_self c cs),
      ih (fun c' hc' => h c' (List.mem_cons_of_mem _ hc'))]

/-- A flat-map of empty lists is empty. -/
lemma flatMap_eq_nil_of {γ α : Type} (cs : List γ) (F : γ → List α)
    (h : ∀ c ∈ cs, F c = []) : cs.flatMap F = [] := by
  induction cs with
  | nil => rfl
  | cons c cs ih =>
    simp only [List.flatMap_cons]
    rw [h c (List.mem_cons_self c cs),
      ih (fun c' hc' => h c' (List.mem_cons_of_mem _ hc'))]
    rfl

/-- Splitting a list into its per-key filters over the distinct keys is a
permutation of the list. -/
lemma flatMap_filter_key_perm (key : Nat → Int) :
    ∀ (cs : List Int) (l : List Nat), cs.Nodup → (∀ a ∈ l, key a ∈ cs) →
      List.Perm (cs.flatMap (fun c => l.filter (fun a => key a == c))) l := by
  intro cs
  induction cs with
  | nil =>
    intro l _ hmem
    rcases l with _ | ⟨a, l⟩
    · simp
    · exact absurd (hmem a (by simp)) (by simp)
  | cons c cs ih =>
    intro l hnd hmem
    rcases List.nodup_cons.mp hnd with ⟨hcnot, hnd'⟩
    simp only [List.flatMap_cons]
    have hstep : ∀ c' ∈ cs, l.filter (fun a => key a == c')
        = (l.filter (fun a => !(key a == c))).filter (fun a => key a == c') := by
      intro c' hc'
      rw [List.filter_filter]
      have hfun : (fun a => (key a == c') && !(key a == c))
          = (fun a => key a == c') := by
        funext a
        rcases h' : key a == c' with _ | _
        · simp
        · have hkey : key a = c' := eq_of_beq h'
          have hne : c' ≠ c := fun h => hcnot (h ▸ hc')
          simp [hkey, hne]
      rw [hfun]
    rw [flatMap_congr_eq cs _ _ hstep]
    have hl' : ∀ a ∈ l.filter (fun a => !(key a == c)), key a ∈ cs := by
      intro a ha
      rcases List.mem_filter.mp ha with ⟨hal, hneq⟩
      rcases List.mem_cons.mp (hmem a hal) with h | h
      · simp [h] at hneq
      · exact h
    refine List.Perm.trans (List.Perm.append_left _ (ih _ hnd' hl')) ?_
    exact List.filter_append_perm _ l

/-- Every position's label is one of the distinct classes. -/
lemma key_mem_classesOf (y : List Int) :
    ∀ i ∈ List.range y.length, y.getD i 0 ∈ classesOf y := by
  intro i hi
  have hlt : i < y.length := List.mem_range.mp hi
  have heq : y.getD i 0 = y[i] := by
    rw [List.getD_eq_getElem?_getD, List.getElem?_eq_getElem hlt]
    rfl
  rw [heq]
  exact List.mem_dedup.mpr (List.getElem_mem hlt)

/-- The two partitions of the stratified split together are a permutation
of all row positions. -/
lemma stratified_split_perm (perm : List Nat → List Nat)
    (hperm : ∀ l : List Nat, List.Perm (perm l) l) (ts : Rat) (y : List Int) :
    List.Perm ((stratified_split perm ts y).1 ++ (stratified_split perm ts y).2)
      (List.range y.length) := by
  unfold stratified_split
  refine List.Perm.trans (flatMap_append_perm _ _ _) ?_
  refine List.Perm.trans
    (flatMap_congr_perm _ _ (fun c => classIdx y c) ?_) ?_
  · intro c hc
    exact List.Perm.trans (drop_take_perm _ _) (hperm _)
  · have := flatMap_filter_key_perm (fun i => y.getD i 0) (classesOf y)
      (List.range y.length) (List.nodup_dedup y) (key_mem_classesOf y)
    simpa [classIdx] using this

/-- Filtering distributes over flat-maps. -/
lemma filter_flatMap {γ α : Type} (cs : List γ) (f : γ → List α) (p : α → Bool) :
    (cs.flatMap f).filter p = cs.flatMap (fun c => (f c).filter p) := by
  induction cs with
  | nil => rfl
  | cons c cs ih => simp [List.flatMap_cons, List.filter_append, ih]

/-- A flat-map whose body vanishes away from one key is that key's body. -/
lemma flatMap_eq_single {γ α : Type} :
    ∀ (cs : List γ) (F : γ → List α) (c : γ), c ∈ cs → cs.Nodup →
      (∀ c' ∈ cs, c' ≠ c → F c' = []) → cs.flatMap F = F c := by
  intro cs
  induction cs with
  | nil => intro F c hc; exact absurd hc (by simp)
  | cons d ds ih =>
    intro F c hc hnd hzero
    rcases List.nodup_cons.mp hnd with ⟨hdnot, hnd'⟩
    rcases List.mem_cons.mp hc with rfl | hc'
    · have hall : ∀ c' ∈ ds, F c' = [] := fun c' h' =>
        hzero c' (List.mem_cons_of_mem _ h') (fun he => hdnot (he ▸ h'))
      simp [List.flatMap_cons, flatMap_eq_nil_of ds F hall]
    · have hd : d ≠ c := fun h => hdnot (h ▸ hc')
      rw [List.flatMap_cons, hzero d (List.mem_cons_self d ds) hd, List.nil_append]
      exact ih F c hc' hnd' (fun c' h' hne => hzero c' (List.mem_cons_of_mem _ h') hne)

/-- Each class's allotment is its floored proportional share, plus at
most one leftover row. -/
lemma alloc_bounds (ts : Rat) (y : List Int) (c : Int) :
    baseAlloc ts y c ≤ alloc ts y c ∧ alloc ts y c ≤ baseAlloc ts y c + 1 := by
  unfold alloc
  split <;> omega

/-- The test partition holds exactly the allotted number of rows of each
class (capped by the class size). -/
lemma stratified_test_count (perm : List Nat → List Nat)
    (hperm : ∀ l : List Nat, List.Perm (perm l) l) (ts : Rat) (y : List Int)
    (c : Int) (hc : c ∈ classesOf y) :
    ((stratified_split perm ts y).2.filter (fun i => y.getD i 0 == c)).length
      = min (alloc ts y c) (classIdx y c).length := by
  unfold stratified_split
  rw [filter_flatMap]
  rw [flatMap_eq_single (classesOf y) _ c hc (List.nodup_dedup y) ?zero]
  case zero =>
    intro c' hc' hne
    apply List.filter_eq_nil_iff.mpr
    intro a ha
    have hmem : a ∈ perm (classIdx y c') := List.mem_of_mem_take ha
    have hmem' : a ∈ classIdx y c' := (hperm _).mem_iff.mp hmem
    have hkey : y.getD a 0 = c' :=
      eq_of_beq (List.mem_filter.mp
        (show a ∈ (List.range y.length).filter (fun i => y.getD i 0 == c')
          from hmem')).2
    intro hcontra
    have hac : y.getD a 0 = c := eq_of_beq hcontra
    rw [hkey] at hac
    exact hne hac
  rw [List.filter_eq_self.mpr ?all]
  case all =>
    intro a ha
    have hmem : a ∈ perm (classIdx y c) := List.mem_of_mem_take ha
    have hmem' : a ∈ classIdx y c := (hperm _).mem_iff.mp hmem
    exact (List.mem_filter.mp
      (show a ∈ (List.range y.length).filter (fun i => y.getD i 0 == c)
        from hmem')).2
  rw [List.length_take, (hperm _).length_eq]

/-- The masked label vector has exactly one entry per usable label. -/
lemma maskedY_length (labels : List (Option Rat)) :
    (maskedY labels).length = labels.countP (fun o => o.isSome) := by
  unfold maskedY
  rw [List.length_map, ← List.countP_eq_length_filter]
  conv_rhs => rw [← List.enum_map_snd labels]
  rw [List.countP_map]
  rfl

end SplitLemmas

/-- C4: the stratified split the Trainer performs over the labels of the
usable-label rows is exhaustive (train and test positions together are a
permutation of all labeled row positions), its partition sizes sum to the
number of labeled rows, no row lands in both partitions, and it is
stratified by label: each class contributes exactly its allotted test
count, which is within one row of the floored proportional share; the
masked label vector itself has exactly one entry per usable label. -/
theorem C4_stratified_split_partition (perm : List Nat → List Nat)
    (hperm : ∀ l : List Nat, List.Perm (perm l) l)
    (test_size : Rat) (y : List Int) (h2 : 2 ≤ nunique y) :
    List.Perm ((stratified_split perm test_size y).1
        ++ (stratified_split perm test_size y).2) (List.range y.length) ∧
      (stratified_split perm test_size y).1.length
          + (stratified_split perm test_size y).2.length = y.length ∧
      (∀ i ∈ (stratified_split perm test_size y).1,
        i ∉ (stratified_split perm test_size y).2) ∧
      (∀ c ∈ classesOf y,
        ((stratified_split perm test_size y).2.filter
            (fun i => y.getD i 0 == c)).length
              = min (alloc test_size y c) (classIdx y c).length ∧
          baseAlloc test_size y c ≤ alloc test_size y c ∧
          alloc test_size y c ≤ baseAlloc test_size y c + 1) ∧
      (∀ labels : List (Option Rat),
        (maskedY labels).length = labels.countP (fun o => o.isSome)) := by
  have hperm1 := stratified_split_perm perm hperm test_size y
  have hnodup : ((stratified_split perm test_size y).1
      ++ (stratified_split perm test_size y).2).Nodup :=
    (hperm1.nodup_iff).mpr (List.nodup_range _)
  refine ⟨hperm1, ?_, ?_, ?_, ?_⟩
  · have := hperm1.length_eq
    simpa using this
  · intro i hi hi2
    exact (List.nodup_append.mp hnodup).2.2 hi hi2
  · intro c hc
    exact ⟨stratified_test_count perm hperm test_size y c hc,
      (alloc_bounds test_size y c).1, (alloc_bounds test_size y c).2⟩
  · exact maskedY_length

/-- C4 witness: a five-row label vector with classes 0 and 1, identity
RNG permutation, test size one fifth. -/
theorem C4_witness :
    2 ≤ nunique [0, 0, 0, 1, 1] ∧
      List.Perm ((stratified_split (fun l => l) ((1 : Rat)/5) [0, 0, 0, 1, 1]).1
          ++ (stratified_split (fun l => l) ((1 : Rat)/5) [0, 0, 0, 1, 1]).2)
        (List.range ([0, 0, 0, 1, 1] : List Int).length) :=
  ⟨by decide,
   (C4_stratified_split_partition (fun l => l) (fun l => List.Perm.refl l)
      ((1 : Rat)/5) [0, 0, 0, 1, 1] (by decide)).1⟩
